import Mathlib

/-!
Verification of the query/cache layer and state-management logic of the
Learning-React course repository, as described by its specification.

The development shallowly embeds:
* `cartReducer` from `src/19-practice-project/src/store/CartContext.jsx`;
* the `useFetch` hook from `src/16-custom-hooks/src/hooks/useFetch.js` and the
  `fetchPlaces` effect from `src/15-data-fetching/src/components/AvailablePlaces.jsx`;
* the disabled-query behaviour of `useQuery` as documented in the lesson notes
  of `src/25-react-query/src/components/Events/NewEventsSection.jsx`;
* the generalized cache engine (CacheStore / QueryController / MutationController)
  of the specification, modelled from the spec, since the corresponding client
  (the Tanstack Query library) is not part of the repository source.
-/

/-! ## Cart reducer (19-practice-project, CartContext.jsx) -/

/-- A cart item as used in `cartReducer`: the meal payload carries an `id`,
further data fields (modelled by `name`), and the `quantity` counter managed
by the reducer.  JS object spread `{...item, quantity := q}` corresponds to a
structure update that preserves the other fields. -/
structure CartItem where
  id : String
  name : String
  quantity : Int
deriving DecidableEq, Repr

/-- Default element used for the (never relevant) out-of-range lookup default. -/
def dummyItem : CartItem := { id := "", name := "", quantity := 0 }

/-- The cart state managed by `useReducer` in `CartContextProvider`. -/
structure CartState where
  items : List CartItem
deriving DecidableEq, Repr

/-- The two action shapes dispatched by `addItem` / `removeItem` in
`CartContextProvider`. -/
inductive CartAction where
  | addItem (item : CartItem)
  | removeItem (id : String)
deriving DecidableEq, Repr

/-- JS `Array.prototype.findIndex`: index of the first element satisfying the
predicate; `none` models the JS return value `-1`. -/
def findIndexJs (p : CartItem → Bool) : List CartItem → Option Nat
  | [] => none
  | x :: xs => if p x then some 0 else (findIndexJs p xs).map (· + 1)

/-- The `ADD_ITEM` branch of `cartReducer`: find the index of an existing item
with the same id; if found, replace that slot by a copy with `quantity + 1`;
otherwise push a copy of the incoming item with `quantity` set to `1`. -/
def addItemBranch (items : List CartItem) (item : CartItem) : List CartItem :=
  match findIndexJs (fun it => it.id == item.id) items with
  | some i =>
    let existingItem := items.getD i dummyItem
    items.set i { existingItem with quantity := existingItem.quantity + 1 }
  | none => items ++ [{ item with quantity := 1 }]

/-- Error message for the JS `TypeError` raised when `REMOVE_ITEM` is
dispatched for an id that is not in the cart: `state.items[-1]` is `undefined`
and reading `.quantity` from it throws. -/
def removeItemTypeError : String :=
  "TypeError: cannot read properties of undefined (reading quantity)"

/-- The `REMOVE_ITEM` branch of `cartReducer`: find the index of the item with
the given id; reading `existingCartItem.quantity` throws when the lookup
missed (index `-1`); a quantity of `1` splices the slot out; otherwise the
slot is replaced by a copy with `quantity - 1`. -/
def removeItemBranch (items : List CartItem) (id : String) :
    Except String (List CartItem) :=
  match findIndexJs (fun it => it.id == id) items with
  | none => .error removeItemTypeError
  | some i =>
    let existingCartItem := items.getD i dummyItem
    if existingCartItem.quantity == 1 then
      .ok (items.eraseIdx i)
    else
      .ok (items.set i { existingCartItem with quantity := existingCartItem.quantity - 1 })

/-- `cartReducer` from `CartContext.jsx`; a thrown JS exception is modelled by
`Except.error`.  Unknown action types return the state unchanged. -/
def cartReducer (state : CartState) (action : CartAction) :
    Except String CartState :=
  match action with
  | .addItem item => .ok { state with items := addItemBranch state.items item }
  | .removeItem id =>
    (removeItemBranch state.items id).map (fun items => { state with items := items })

/-! ## The useFetch hook (16-custom-hooks, useFetch.js) and
AvailablePlaces fetch effect (15-data-fetching) -/

/-- A thrown JS error value as observed by the catch blocks: it may or may not
carry a `message` string (reading `error.message` can yield `undefined`). -/
structure JsError where
  message : Option String
deriving DecidableEq, Repr

/-- The error object stored by the hooks:
`{ message: error.message || "..." }`. -/
structure FetchError where
  message : String
deriving DecidableEq, Repr

/-- JS `x || d` for a string-or-undefined `x`: `undefined` and the empty
string are falsy, so both fall back to the default. -/
def jsOr (x : Option String) (d : String) : String :=
  match x with
  | none => d
  | some t => if t = "" then d else t

/-- The state managed by `useFetch`: `isFetching` starts as `undefined`
(`useState()` with no argument, modelled by `none`), `error` starts unset,
and `fetchedData` starts as the caller-supplied `initialValue`. -/
structure UseFetchState (V : Type) where
  isFetching : Option Bool
  error : Option FetchError
  fetchedData : Option V
deriving DecidableEq, Repr

/-- The initial state of `useFetch fetchFn initialValue`. -/
def useFetchInit (initialValue : Option V) : UseFetchState V :=
  { isFetching := none, error := none, fetchedData := initialValue }

/-- One run of the `fetchData` function inside `useFetch`'s effect, applied to
the settled outcome of `await fetchFn()`: set `isFetching` to `true`; on
resolution store the data, on rejection store
`{ message: error.message || "Failed to fetch data." }`; finally set
`isFetching` to `false`.  The function is total: a rejection of `fetchFn` is
consumed by the catch block and never escapes. -/
def fetchData (s : UseFetchState V) (result : Except JsError V) :
    UseFetchState V :=
  let s1 := { s with isFetching := some true }
  let s2 :=
    match result with
    | .ok data => { s1 with fetchedData := some data }
    | .error e => { s1 with error := some ⟨jsOr e.message "Failed to fetch data."⟩ }
  { s2 with isFetching := some false }

/-- The state managed by the `AvailablePlaces` component: loading flag, the
fetched (sorted) places, and the error object. -/
structure PlacesState (P : Type) where
  isFetching : Bool
  availablePlaces : List P
  error : Option FetchError
deriving DecidableEq, Repr

/-- One run of the `fetchPlaces` function inside `AvailablePlaces`' effect,
applied to the settled outcome of `await fetchAvailablePlaces()`.  The
geolocation callback and `sortPlacesByDistance` (browser API plus `loc.js`,
external to the modelled core) are abstracted as the `sortFn` argument
applied on the success path.  On rejection the catch block stores
`{ message: error.message || "Could not fetch places, please try again later" }`
and clears the loading flag; the previously fetched places are untouched. -/
def fetchPlaces (s : PlacesState P) (result : Except JsError (List P))
    (sortFn : List P → List P) : PlacesState P :=
  let s1 := { s with isFetching := true }
  match result with
  | .ok places =>
    { s1 with availablePlaces := sortFn places, isFetching := false }
  | .error e =>
    { s1 with error := some ⟨jsOr e.message "Could not fetch places, please try again later"⟩,
              isFetching := false }

/-! ## The generalized cache engine (spec sections 3 and 4) -/

/-- Modelled from the spec: a `CacheKey` is an ordered serializable sequence
of values, compared by canonical serialization; modelled as a list of
serialized components. -/
abbrev CacheKey : Type := List String

/-- Modelled from the spec: the `status` field of a `CacheEntry`:
one of idle, fetching, success, error. -/
inductive EntryStatus where
  | idle
  | fetching
  | success
  | error
deriving DecidableEq, Repr

/-- Modelled from the spec: a `CacheEntry` (section 3).  `data` is the last
successfully fetched value, `error` the last fetch error, `fetchedAt` the
completion time, `staleAfter` the freshness window, `status` the entry
status.  The in-flight reference is modelled by the `inFlight` flag together
with the number of attached `waiters`; `invalid` records that the entry was
marked stale by a mutation's invalidation, clearing `staleAfter`
eligibility. -/
structure CacheEntry (V E : Type) where
  data : Option V
  error : Option E
  fetchedAt : Option Nat
  staleAfter : Nat
  status : EntryStatus
  inFlight : Bool
  waiters : Nat
  invalid : Bool
deriving DecidableEq, Repr

/-- Modelled from the spec: a fresh entry created lazily on first query,
never fetched, idle, with the given freshness window (default 0 means
immediately stale). -/
def newEntry (staleAfter : Nat) : CacheEntry V E :=
  { data := none, error := none, fetchedAt := none, staleAfter := staleAfter,
    status := .idle, inFlight := false, waiters := 0, invalid := false }

/-- Modelled from the spec: the `CacheStore`, a keyed in-memory store of
entries — a pure data structure, modelled as an association list keyed by
`CacheKey`. -/
abbrev CacheStore (V E : Type) : Type := List (CacheKey × CacheEntry V E)

/-- Modelled from the spec: `CacheStore.get` — the entry for a key, or
absent; never throws. -/
def getEntry (L : CacheStore V E) (k : CacheKey) : Option (CacheEntry V E) :=
  match L with
  | [] => none
  | p :: t => if p.1 = k then some p.2 else getEntry t k

/-- Modelled from the spec: `CacheStore.set` — replace the entry stored for
the key, or insert it if the key is absent. -/
def setEntry (L : CacheStore V E) (k : CacheKey) (v : CacheEntry V E) :
    CacheStore V E :=
  match L with
  | [] => [(k, v)]
  | p :: t => if p.1 = k then (p.1, v) :: t else p :: setEntry t k v

/-- Modelled from the spec: `CacheStore.delete` — remove the entry stored for
the key. -/
def delEntry (L : CacheStore V E) (k : CacheKey) : CacheStore V E :=
  match L with
  | [] => []
  | p :: t => if p.1 = k then t else p :: delEntry t k

/-- Modelled from the spec: freshness of an entry — `now - fetchedAt <
staleAfter`, never-fetched entries are not fresh, and an entry invalidated by
a mutation has lost its `staleAfter` eligibility. -/
def isFresh (e : CacheEntry V E) (now : Nat) : Bool :=
  !e.invalid &&
    match e.fetchedAt with
    | some t => decide (now - t < e.staleAfter)
    | none => false

/-- Modelled from the spec: the options recognized by
`QueryController.query` that the claims exercise. -/
structure QueryOptions where
  staleAfter : Nat
  enabled : Bool
deriving DecidableEq, Repr

/-- Modelled from the spec: the externally observable effect of one `query`
call: report idle without fetching (disabled), serve the cached value with no
fetch, attach to an already in-flight request, or start a fetch (the only
case in which the underlying fetch function is called). -/
inductive QueryAction (V : Type) where
  | idle
  | servedCached (v : Option V)
  | attached
  | startedFetch
deriving DecidableEq, Repr

/-- Whether this query action called the underlying fetch function. -/
def QueryAction.calledFetch : QueryAction V → Bool
  | .startedFetch => true
  | _ => false

/-- Modelled from the spec: one `QueryController.query` step (section 4.2):
disabled queries issue no fetch; a fresh entry is served from the cache with
no fetch; a stale or absent entry with an in-flight request attaches to it;
otherwise a fetch is started, marking the entry `fetching`/in-flight with the
caller as first waiter. -/
def queryStep (store : CacheStore V E) (k : CacheKey) (now : Nat)
    (opts : QueryOptions) : CacheStore V E × QueryAction V :=
  if !opts.enabled then (store, .idle)
  else
    match getEntry store k with
    | some e =>
      if isFresh e now then (store, .servedCached e.data)
      else if e.inFlight then
        (setEntry store k { e with waiters := e.waiters + 1 }, .attached)
      else
        (setEntry store k
          { e with status := .fetching, inFlight := true, waiters := 1,
                   staleAfter := opts.staleAfter }, .startedFetch)
    | none =>
      (setEntry store k
        { newEntry opts.staleAfter with status := .fetching, inFlight := true,
                                        waiters := 1 }, .startedFetch)

/-- Modelled from the spec: completion of the in-flight fetch for a key
(section 4.2, steps 5 and 6).  On success the data is written, the error
cleared, the status set to success and `fetchedAt` to now; on failure the
error is stored while prior data is preserved.  The second component lists
the outcome delivered to each attached waiter — all of them receive the same
settled result. -/
def completeFetch (store : CacheStore V E) (k : CacheKey) (now : Nat)
    (result : Except E V) : CacheStore V E × List (Except E V) :=
  match getEntry store k with
  | none => (store, [])
  | some e =>
    match result with
    | .ok v =>
      (setEntry store k
        { e with data := some v, error := none, status := .success,
                 fetchedAt := some now, inFlight := false, waiters := 0,
                 invalid := false },
       List.replicate e.waiters (.ok v))
    | .error err =>
      (setEntry store k
        { e with error := some err, status := .error, inFlight := false,
                 waiters := 0 },
       List.replicate e.waiters (.error err))

/-- Modelled from the spec: `N` concurrent queries for the same key, all
issued before the first resolves (no completion is interleaved); returns the
resulting store and how many times the underlying fetch function was
called. -/
def issueConcurrent (store : CacheStore V E) (k : CacheKey) (now : Nat)
    (opts : QueryOptions) : Nat → CacheStore V E × Nat
  | 0 => (store, 0)
  | n + 1 =>
    let r := queryStep store k now opts
    let rest := issueConcurrent r.1 k now opts n
    (rest.1, (if r.2.calledFetch then 1 else 0) + rest.2)

/-- Modelled from the spec: the optimistic patch for one affected key — the
new optimistic data is written into the existing entry, or into a fresh
entry (default, immediately stale) when the key was absent. -/
def patchEntry (old : Option (CacheEntry V E)) (v : Option V) :
    CacheEntry V E :=
  match old with
  | some e => { e with data := v }
  | none => { (newEntry 0 : CacheEntry V E) with data := v }

/-- Modelled from the spec: apply the optimistic patches for all affected
keys to the store, in order. -/
def applyPatches (L : CacheStore V E) (ks : List CacheKey)
    (patchFor : CacheKey → Option V) : CacheStore V E :=
  ks.foldl (fun acc k => setEntry acc k (patchEntry (getEntry acc k) (patchFor k))) L

/-- Modelled from the spec: the `MutationSnapshot` — the prior entry value
(or absence) captured for every affected key before the optimistic write. -/
def snapshotOf (L : CacheStore V E) (ks : List CacheKey) :
    List (CacheKey × Option (CacheEntry V E)) :=
  ks.map (fun k => (k, getEntry L k))

/-- Modelled from the spec: restoring one snapshotted key — put the captured
entry back, or delete the entry if the key was absent before the patch. -/
def restoreOne (L : CacheStore V E) (kg : CacheKey × Option (CacheEntry V E)) :
    CacheStore V E :=
  match kg.2 with
  | some e => setEntry L kg.1 e
  | none => delEntry L kg.1

/-- Modelled from the spec: rollback — restore every snapshotted key, undoing
the patches in reverse order of application. -/
def rollbackStore (L : CacheStore V E)
    (snap : List (CacheKey × Option (CacheEntry V E))) : CacheStore V E :=
  snap.foldr (fun kg acc => restoreOne acc kg) L

/-- Modelled from the spec: invalidation — mark every affected key's entry
stale (clear its `staleAfter` eligibility) so the next query refetches. -/
def markStale (L : CacheStore V E) (ks : List CacheKey) : CacheStore V E :=
  ks.foldl
    (fun acc k =>
      match getEntry acc k with
      | some e => setEntry acc k { e with invalid := true }
      | none => acc) L

/-- Modelled from the spec: `MutationController.mutate` (section 4.3),
applied to the settled outcome of the underlying operation: snapshot the
entries for the affected keys, apply the optimistic patches; on success mark
all affected keys stale and discard the snapshot; on failure restore the
snapshot (rollback) and surface the error to the caller. -/
def mutateSpec (store : CacheStore V E) (affectedKeys : List CacheKey)
    (patchFor : CacheKey → Option V) (opResult : Except E R) :
    CacheStore V E × Except E R :=
  let snap := snapshotOf store affectedKeys
  let patched := applyPatches store affectedKeys patchFor
  match opResult with
  | .ok r => (markStale patched affectedKeys, .ok r)
  | .error err => (rollbackStore patched snap, .error err)

/-! ## Disabled queries (25-react-query, FindEventSection lesson notes) -/

/-- The query status reported by `useQuery` in the lesson's library version:
`pending` until data or an error arrives, then `success` or `error`.  There
is no `idle` status. -/
inductive RqStatus where
  | pending
  | success
  | error
deriving DecidableEq, Repr

/-- What `useQuery` reports on the render the lesson notes discuss, plus
whether the request was sent. -/
structure RqRender where
  status : RqStatus
  isPending : Bool
  isLoading : Bool
  requestSent : Bool
deriving DecidableEq, Repr

/-- The initial render of `useQuery` with an `enabled` flag, as documented in
the FindEventSection lesson notes of
`src/25-react-query/src/components/Events/NewEventsSection.jsx`: if the query
is disabled the request is not sent, yet "react query treats isPending as
true unless the query is enabled" (the loading indicator driven by
`isPending` is visible), while "isLoading will not be true when the query is
just disabled"; an enabled query sends the request and is pending and loading
until it settles. -/
def useQueryRender (enabled : Bool) : RqRender :=
  if enabled then
    { status := .pending, isPending := true, isLoading := true, requestSent := true }
  else
    { status := .pending, isPending := true, isLoading := false, requestSent := false }

/-! ## Store lemmas -/

/-- A concrete cache entry used by the witnesses: a successfully fetched
value `1` stored at time `0` with a 5000ms freshness window. -/
def demoEntry : CacheEntry Nat String :=
  { data := some 1, error := none, fetchedAt := some 0, staleAfter := 5000,
    status := .success, inFlight := false, waiters := 0, invalid := false }

/-- A concrete one-entry store used by the witnesses. -/
def demoStore : CacheStore Nat String := [(["events"], demoEntry)]

/-- The concrete store of scenario A: `query(["items"], fetchFn)` with
`staleAfter = 5000` starts a fetch at time `0` which resolves to `99`. -/
def scenarioAStore : CacheStore Nat String :=
  (completeFetch (queryStep ([] : CacheStore Nat String) ["items"] 0
    ⟨5000, true⟩).1 ["items"] 0 (.ok 99)).1

/-- The cache entry scenario A leaves behind for `["items"]`. -/
def scenarioAEntry : CacheEntry Nat String :=
  { data := some 99, error := none, fetchedAt := some 0, staleAfter := 5000,
    status := .success, inFlight := false, waiters := 0, invalid := false }

/-! ## Theorems -/

theorem findIndexJs_eq_none (p : CartItem → Bool) (l : List CartItem)
    (h : ∀ x ∈ l, p x = false) : findIndexJs p l = none := by
  induction l with
  | nil => rfl
  | cons x xs ih =>
    simp only [findIndexJs, h x (List.mem_cons_self x xs)]
    simp [ih fun y hy => h y (List.mem_cons_of_mem x hy)]

theorem addItemBranch_cons_match (it item : CartItem) (rest : List CartItem)
    (h : (it.id == item.id) = true) :
    addItemBranch (it :: rest) item = { it with quantity := it.quantity + 1 } :: rest := by
  simp [addItemBranch, findIndexJs, h]

theorem addItemBranch_cons_nomatch (it item : CartItem) (rest : List CartItem)
    (h : (it.id == item.id) = false) :
    addItemBranch (it :: rest) item = it :: addItemBranch rest item := by
  simp only [addItemBranch, findIndexJs, h, if_neg Bool.false_ne_true]
  cases hf : findIndexJs (fun x => x.id == item.id) rest with
  | none => simp
  | some j => simp [List.getD]

theorem removeItemBranch_cons_match (it : CartItem) (rest : List CartItem)
    (id : String) (h : (it.id == id) = true) :
    removeItemBranch (it :: rest) id =
      (if it.quantity == 1 then .ok rest
       else .ok ({ it with quantity := it.quantity - 1 } :: rest)) := by
  by_cases hq : it.quantity == 1 <;>
    simp [removeItemBranch, findIndexJs, h, hq, List.eraseIdx, List.getD]

theorem removeItemBranch_cons_nomatch (it : CartItem) (rest : List CartItem)
    (id : String) (h : (it.id == id) = false) :
    removeItemBranch (it :: rest) id =
      (removeItemBranch rest id).map (fun l => it :: l) := by
  simp only [removeItemBranch, findIndexJs, h, if_neg Bool.false_ne_true]
  cases hf : findIndexJs (fun x => x.id == id) rest with
  | none => simp [Except.map]
  | some j =>
    by_cases hq : (rest[j]?.getD dummyItem).quantity = 1 <;>
      simp [List.getD, List.eraseIdx, hq, Except.map]

theorem roundtrip_list (items : List CartItem) (item : CartItem)
    (h : ∀ it ∈ items, it.id = item.id → it.quantity ≠ 0) :
    removeItemBranch (addItemBranch items item) item.id = .ok items := by
  induction items with
  | nil =>
    simp [addItemBranch, findIndexJs, removeItemBranch, List.eraseIdx, List.getD]
  | cons it rest ih =>
    by_cases hid : (it.id == item.id) = true
    · rw [addItemBranch_cons_match it item rest hid]
      rw [removeItemBranch_cons_match _ rest item.id (by simpa using hid)]
      have hq : it.quantity ≠ 0 :=
        h it (List.mem_cons_self it rest) (by simpa using hid)
      have hq1 : ¬(it.quantity + 1 = 1) := by omega
      simp only [show ({ it with quantity := it.quantity + 1 } : CartItem).quantity
          = it.quantity + 1 from rfl]
      rw [if_neg (by simpa using hq1)]
      have : it.quantity + 1 - 1 = it.quantity := by omega
      simp [this]
    · have hid' : (it.id == item.id) = false := by
        simpa using hid
      rw [addItemBranch_cons_nomatch it item rest hid']
      rw [removeItemBranch_cons_nomatch it _ item.id hid']
      rw [ih fun x hx => h x (List.mem_cons_of_mem it hx)]
      rfl

/-- Claim C10 (counterexample): adding then removing an item whose id is
already in the cart with quantity `0` does not round-trip: the add bumps the
quantity to `1`, so the remove splices the whole entry out of the list. -/
theorem c10_add_remove_roundtrip_counterexample :
    (cartReducer ⟨[⟨"m1", "Mac & Cheese", 0⟩]⟩
        (.addItem ⟨"m1", "Mac & Cheese", 5⟩)).bind
      (fun s => cartReducer s (.removeItem "m1")) = .ok ⟨[]⟩ ∧
    (⟨[]⟩ : CartState) ≠ ⟨[⟨"m1", "Mac & Cheese", 0⟩]⟩ := by
  constructor
  · rfl
  · decide

/-- Claim C10 (amended): for every cart state and every item, provided every
existing cart entry carrying the item's id has quantity different from `0`,
applying `cartReducer` with `ADD_ITEM item` followed by
`REMOVE_ITEM item.id` yields a state whose items list is structurally equal
to the original list. -/
theorem c10_add_then_remove_roundtrip (state : CartState) (item : CartItem)
    (h : ∀ it ∈ state.items, it.id = item.id → it.quantity ≠ 0) :
    (cartReducer state (.addItem item)).bind
      (fun s => cartReducer s (.removeItem item.id)) = .ok state := by
  show ((removeItemBranch (addItemBranch state.items item) item.id).map
      (fun items => { state with items := items })) = .ok state
  rw [roundtrip_list state.items item h]
  rfl

theorem c10_add_then_remove_roundtrip_witness :
    (∀ it ∈ ({ items := [⟨"m1", "Mac & Cheese", 2⟩] } : CartState).items,
        it.id = (⟨"m2", "Burger", 3⟩ : CartItem).id → it.quantity ≠ 0) ∧
    (cartReducer ⟨[⟨"m1", "Mac & Cheese", 2⟩]⟩ (.addItem ⟨"m2", "Burger", 3⟩)).bind
      (fun s => cartReducer s (.removeItem "m2")) =
        .ok ⟨[⟨"m1", "Mac & Cheese", 2⟩]⟩ :=
  ⟨by decide, c10_add_then_remove_roundtrip ⟨[⟨"m1", "Mac & Cheese", 2⟩]⟩
    ⟨"m2", "Burger", 3⟩ (by decide)⟩

/-- Claim C9: for every cart state and every `REMOVE_ITEM` action whose id
matches no element of `state.items`, `cartReducer` throws: `findIndex`
returns `-1`, the array lookup yields `undefined`, and reading its
`quantity` property raises a `TypeError`. -/
theorem c9_remove_missing_id_throws (state : CartState) (id : String)
    (h : ∀ it ∈ state.items, it.id ≠ id) :
    cartReducer state (.removeItem id) = .error removeItemTypeError := by
  have hnone : findIndexJs (fun it => it.id == id) state.items = none :=
    findIndexJs_eq_none _ _ fun x hx => by simpa using h x hx
  simp [cartReducer, removeItemBranch, hnone, Except.map]

theorem c9_remove_missing_id_throws_witness :
    (∀ it ∈ ({ items := [⟨"m1", "Mac & Cheese", 1⟩] } : CartState).items,
        it.id ≠ "m2") ∧
    cartReducer ⟨[⟨"m1", "Mac & Cheese", 1⟩]⟩ (.removeItem "m2") =
      .error removeItemTypeError :=
  ⟨by decide, c9_remove_missing_id_throws ⟨[⟨"m1", "Mac & Cheese", 1⟩]⟩ "m2" (by decide)⟩

/-- Claim C3 (counterexample): a fetch that succeeds after an earlier failed
attempt does not clear the error: `useFetch`'s success path only stores the
data, so the stale error persists next to the fresh data, contradicting
"error field cleared to absent" and "success implies error absent". -/
theorem c3_success_clears_error_counterexample :
    (fetchData (fetchData (useFetchInit (none : Option Nat))
        (.error ⟨some "boom"⟩)) (.ok 42)).error = some ⟨"boom"⟩ ∧
    (fetchData (fetchData (useFetchInit (none : Option Nat))
        (.error ⟨some "boom"⟩)) (.ok 42)).fetchedData = some 42 := by
  constructor <;> rfl

/-- Claim C3 (amended): for every fetch that completes successfully,
`useFetch` sets the data field to the fetched value and clears the loading
flag, but leaves the error field unchanged: an error recorded by an earlier
failed attempt for the same consumer is retained alongside the new data
rather than cleared. -/
theorem c3_success_sets_data_retains_error {V : Type} (s : UseFetchState V)
    (v : V) :
    (fetchData s (.ok v)).fetchedData = some v ∧
    (fetchData s (.ok v)).error = s.error ∧
    (fetchData s (.ok v)).isFetching = some false :=
  ⟨rfl, rfl, rfl⟩

/-- Claim C4: for every fetch that fails, `useFetch` stores the wrapped
failure in the error field and leaves any previously fetched data value
unchanged: stale data is retained alongside the error rather than cleared. -/
theorem c4_failure_sets_error_retains_data {V : Type} (s : UseFetchState V)
    (e : JsError) :
    (fetchData s (.error e)).error =
      some ⟨jsOr e.message "Failed to fetch data."⟩ ∧
    (fetchData s (.error e)).fetchedData = s.fetchedData ∧
    (fetchData s (.error e)).isFetching = some false :=
  ⟨rfl, rfl, rfl⟩

theorem getEntry_setEntry_self (L : CacheStore V E) (k : CacheKey)
    (v : CacheEntry V E) : getEntry (setEntry L k v) k = some v := by
  induction L with
  | nil => simp [setEntry, getEntry]
  | cons p t ih =>
    by_cases h : p.1 = k
    · simp [setEntry, getEntry, h]
    · simp [setEntry, getEntry, h, ih]

theorem getEntry_setEntry_ne (L : CacheStore V E) (k kq : CacheKey)
    (v : CacheEntry V E) (h : kq ≠ k) :
    getEntry (setEntry L k v) kq = getEntry L kq := by
  induction L with
  | nil => simp [setEntry, getEntry, Ne.symm h]
  | cons p t ih =>
    by_cases hp : p.1 = k
    · simp [setEntry, getEntry, hp, Ne.symm h]
    · simp [setEntry, getEntry, hp, ih]

theorem restoreOne_cons_ne (p : CacheKey × CacheEntry V E) (M : CacheStore V E)
    (k : CacheKey) (g : Option (CacheEntry V E)) (h : p.1 ≠ k) :
    restoreOne (p :: M) (k, g) = p :: restoreOne M (k, g) := by
  cases g <;> simp [restoreOne, setEntry, delEntry, h]

theorem restoreOne_setEntry (L : CacheStore V E) (k : CacheKey)
    (v : CacheEntry V E) : restoreOne (setEntry L k v) (k, getEntry L k) = L := by
  induction L with
  | nil => simp [setEntry, getEntry, restoreOne, delEntry]
  | cons p t ih =>
    obtain ⟨p1, p2⟩ := p
    by_cases hp : p1 = k
    · subst hp
      simp [setEntry, getEntry, restoreOne]
    · simp only [setEntry, getEntry, if_neg hp]
      rw [restoreOne_cons_ne (p1, p2) _ k _ hp, ih]

theorem snapshotOf_setEntry_notMem (L : CacheStore V E) (k : CacheKey)
    (v : CacheEntry V E) (ks : List CacheKey) (h : k ∉ ks) :
    snapshotOf (setEntry L k v) ks = snapshotOf L ks := by
  induction ks with
  | nil => rfl
  | cons a as ih =>
    have ha : a ≠ k := Ne.symm (List.ne_of_not_mem_cons h)
    have has : k ∉ as := List.not_mem_of_not_mem_cons h
    simp only [snapshotOf, List.map_cons] at *
    rw [getEntry_setEntry_ne L k a v ha, ih has]

theorem rollback_applyPatches (ks : List CacheKey) (L : CacheStore V E)
    (patchFor : CacheKey → Option V) (h : ks.Nodup) :
    rollbackStore (applyPatches L ks patchFor) (snapshotOf L ks) = L := by
  induction ks generalizing L with
  | nil => rfl
  | cons k rest ih =>
    have hk : k ∉ rest := (List.nodup_cons.mp h).1
    have hrest : rest.Nodup := (List.nodup_cons.mp h).2
    simp only [applyPatches, List.foldl_cons, snapshotOf, List.map_cons,
      rollbackStore, List.foldr_cons]
    rw [show (rest.map fun kk => (kk, getEntry L kk)) = snapshotOf L rest from rfl]
    rw [← snapshotOf_setEntry_notMem L k
      (patchEntry (getEntry L k) (patchFor k)) rest hk]
    rw [show (List.foldl
        (fun acc kk => setEntry acc kk (patchEntry (getEntry acc kk) (patchFor kk)))
        (setEntry L k (patchEntry (getEntry L k) (patchFor k))) rest) =
      applyPatches (setEntry L k (patchEntry (getEntry L k) (patchFor k))) rest
        patchFor from rfl]
    rw [show (List.foldr (fun kg acc => restoreOne acc kg)
        (applyPatches (setEntry L k (patchEntry (getEntry L k) (patchFor k))) rest
          patchFor)
        (snapshotOf (setEntry L k (patchEntry (getEntry L k) (patchFor k))) rest)) =
      rollbackStore
        (applyPatches (setEntry L k (patchEntry (getEntry L k) (patchFor k))) rest
          patchFor)
        (snapshotOf (setEntry L k (patchEntry (getEntry L k) (patchFor k))) rest)
      from rfl]
    rw [ih _ hrest]
    exact restoreOne_setEntry L k (patchEntry (getEntry L k) (patchFor k))

/-- Claim C1: for every mutation that applies an optimistic update and whose
underlying operation fails, the cache state after the failure handling is
identical to the state captured immediately before the optimistic patch was
applied: the rollback restores the pre-patch snapshot exactly, for every
store, every set of (distinct) affected keys and every patch. -/
theorem c1_failed_mutation_rolls_back (store : CacheStore V E)
    (affectedKeys : List CacheKey) (patchFor : CacheKey → Option V) (err : E)
    (h : affectedKeys.Nodup) :
    (mutateSpec store affectedKeys patchFor (.error err : Except E R)).1 = store := by
  simp only [mutateSpec]
  exact rollback_applyPatches affectedKeys store patchFor h

theorem c1_failed_mutation_rolls_back_witness :
    ([["events"], ["events", "e1"]] : List CacheKey).Nodup ∧
    (mutateSpec demoStore [["events"], ["events", "e1"]] (fun _ => some 2)
      (.error "network down" : Except String Nat)).1 = demoStore :=
  ⟨by decide, c1_failed_mutation_rolls_back demoStore [["events"], ["events", "e1"]]
    (fun _ => some 2) "network down" (by decide)⟩

theorem issueConcurrent_inflight (m : Nat) (L : CacheStore V E) (k : CacheKey)
    (now : Nat) (opts : QueryOptions) (e : CacheEntry V E)
    (hget : getEntry L k = some e) (hin : e.inFlight = true)
    (hfa : e.fetchedAt = none) (hen : opts.enabled = true) :
    (issueConcurrent L k now opts m).2 = 0 ∧
    getEntry (issueConcurrent L k now opts m).1 k =
      some { e with waiters := e.waiters + m } := by
  induction m generalizing L e with
  | zero => exact ⟨rfl, by simpa using hget⟩
  | succ n ih =>
    have hfresh : isFresh e now = false := by simp [isFresh, hfa]
    have hstep : queryStep L k now opts =
        (setEntry L k { e with waiters := e.waiters + 1 }, .attached) := by
      simp [queryStep, hen, hget, hfresh, hin]
    simp only [issueConcurrent]
    rw [hstep]
    obtain ⟨h1, h2⟩ := ih (setEntry L k { e with waiters := e.waiters + 1 })
      { e with waiters := e.waiters + 1 } (getEntry_setEntry_self L k _) hin hfa
    refine ⟨by simpa [QueryAction.calledFetch] using h1, ?_⟩
    rw [show e.waiters + (n + 1) = e.waiters + 1 + n from by omega]
    exact h2

/-- Claim C2: if `N ≥ 2` concurrent queries are issued for the same key
before the first resolves, starting from a store with no entry for that key,
the underlying fetch function is called exactly once, and on resolution every
one of the `N` attached callers receives the same resolved data. -/
theorem c2_concurrent_queries_dedup (store : CacheStore V E) (k : CacheKey)
    (now now2 sa N : Nat) (v : V) (habs : getEntry store k = none)
    (hN : 2 ≤ N) :
    (issueConcurrent store k now ⟨sa, true⟩ N).2 = 1 ∧
    (completeFetch (issueConcurrent store k now ⟨sa, true⟩ N).1 k now2
      (.ok v)).2 = List.replicate N (Except.ok v) := by
  obtain ⟨n, rfl⟩ : ∃ n, N = n + 1 := ⟨N - 1, by omega⟩
  have hstep : queryStep store k now ⟨sa, true⟩ =
      (setEntry store k
        { newEntry sa with status := .fetching, inFlight := true, waiters := 1 },
       .startedFetch) := by
    simp [queryStep, habs]
  simp only [issueConcurrent]
  rw [hstep]
  obtain ⟨h1, h2⟩ := issueConcurrent_inflight n
    (setEntry store k
      { newEntry sa with status := .fetching, inFlight := true, waiters := 1 })
    k now ⟨sa, true⟩
    { newEntry sa with status := .fetching, inFlight := true, waiters := 1 }
    (getEntry_setEntry_self store k _) rfl rfl rfl
  constructor
  · simp [QueryAction.calledFetch, h1]
  · simp only [completeFetch, h2]
    show List.replicate (1 + n) (Except.ok v) = List.replicate (n + 1) (Except.ok v)
    rw [Nat.add_comm]

theorem c2_concurrent_queries_dedup_witness :
    getEntry ([] : CacheStore Nat String) ["items"] = none ∧ 2 ≤ 2 ∧
    (issueConcurrent ([] : CacheStore Nat String) ["items"] 0 ⟨5000, true⟩ 2).2 = 1 ∧
    (completeFetch (issueConcurrent ([] : CacheStore Nat String) ["items"] 0
      ⟨5000, true⟩ 2).1 ["items"] 0 (.ok 7)).2 = List.replicate 2 (Except.ok 7) :=
  ⟨rfl, by omega,
    (c2_concurrent_queries_dedup [] ["items"] 0 0 5000 2 7 rfl (by omega)).1,
    (c2_concurrent_queries_dedup [] ["items"] 0 0 5000 2 7 rfl (by omega)).2⟩

/-- Claim C5: if the cached entry for a key is still fresh
(`now - fetchedAt < staleAfter`, not invalidated), an enabled query for that
key returns the cached value and does not change the store; in particular no
new call of the fetch function is triggered. -/
theorem c5_fresh_entry_served_from_cache (store : CacheStore V E)
    (k : CacheKey) (now sa : Nat) (e : CacheEntry V E)
    (hget : getEntry store k = some e) (hfresh : isFresh e now = true) :
    queryStep store k now ⟨sa, true⟩ = (store, .servedCached e.data) := by
  simp [queryStep, hget, hfresh]

theorem c5_fresh_entry_served_from_cache_witness :
    (queryStep ([] : CacheStore Nat String) ["items"] 0 ⟨5000, true⟩).2 =
      QueryAction.startedFetch ∧
    getEntry scenarioAStore ["items"] = some scenarioAEntry ∧
    isFresh scenarioAEntry 2000 = true ∧
    queryStep scenarioAStore ["items"] 2000 ⟨5000, true⟩ =
      (scenarioAStore, QueryAction.servedCached (some 99)) :=
  ⟨rfl, rfl, rfl,
    c5_fresh_entry_served_from_cache scenarioAStore ["items"] 2000 5000
      scenarioAEntry rfl rfl⟩

theorem getEntry_applyPatches_notMem (ks : List CacheKey) (L : CacheStore V E)
    (patchFor : CacheKey → Option V) (k : CacheKey) (h : k ∉ ks) :
    getEntry (applyPatches L ks patchFor) k = getEntry L k := by
  induction ks generalizing L with
  | nil => rfl
  | cons a rest ih =>
    have ha : k ≠ a := List.ne_of_not_mem_cons h
    have hrest : k ∉ rest := List.not_mem_of_not_mem_cons h
    simp only [applyPatches, List.foldl_cons]
    rw [show (List.foldl
        (fun acc kk => setEntry acc kk (patchEntry (getEntry acc kk) (patchFor kk)))
        (setEntry L a (patchEntry (getEntry L a) (patchFor a))) rest) =
      applyPatches (setEntry L a (patchEntry (getEntry L a) (patchFor a))) rest
        patchFor from rfl]
    rw [ih _ hrest]
    exact getEntry_setEntry_ne L a k _ ha

theorem getEntry_applyPatches_mem (ks : List CacheKey) (L : CacheStore V E)
    (patchFor : CacheKey → Option V) (k : CacheKey) (hnd : ks.Nodup)
    (h : k ∈ ks) :
    getEntry (applyPatches L ks patchFor) k =
      some (patchEntry (getEntry L k) (patchFor k)) := by
  induction ks generalizing L with
  | nil => cases h
  | cons a rest ih =>
    have hrest : rest.Nodup := (List.nodup_cons.mp hnd).2
    simp only [applyPatches, List.foldl_cons]
    rw [show (List.foldl
        (fun acc kk => setEntry acc kk (patchEntry (getEntry acc kk) (patchFor kk)))
        (setEntry L a (patchEntry (getEntry L a) (patchFor a))) rest) =
      applyPatches (setEntry L a (patchEntry (getEntry L a) (patchFor a))) rest
        patchFor from rfl]
    by_cases hak : k = a
    · subst hak
      have hk : k ∉ rest := (List.nodup_cons.mp hnd).1
      rw [getEntry_applyPatches_notMem rest _ patchFor k hk]
      exact getEntry_setEntry_self L k _
    · have hk : k ∈ rest := (List.mem_cons.mp h).resolve_left hak
      rw [ih _ hrest hk]
      rw [getEntry_setEntry_ne L a k _ hak]

theorem getEntry_markStale_notMem (ks : List CacheKey) (L : CacheStore V E)
    (k : CacheKey) (h : k ∉ ks) :
    getEntry (markStale L ks) k = getEntry L k := by
  induction ks generalizing L with
  | nil => rfl
  | cons a rest ih =>
    have ha : k ≠ a := List.ne_of_not_mem_cons h
    have hrest : k ∉ rest := List.not_mem_of_not_mem_cons h
    simp only [markStale, List.foldl_cons]
    cases hg : getEntry L a with
    | none =>
      simp only [hg]
      exact ih L hrest
    | some e =>
      simp only [hg]
      rw [show (List.foldl
          (fun acc kk =>
            match getEntry acc kk with
            | some ee => setEntry acc kk { ee with invalid := true }
            | none => acc)
          (setEntry L a { e with invalid := true }) rest) =
        markStale (setEntry L a { e with invalid := true }) rest from rfl]
      rw [ih _ hrest]
      exact getEntry_setEntry_ne L a k _ ha

theorem getEntry_markStale_mem (ks : List CacheKey) (L : CacheStore V E)
    (k : CacheKey) (e : CacheEntry V E) (hnd : ks.Nodup) (h : k ∈ ks)
    (hget : getEntry L k = some e) :
    getEntry (markStale L ks) k = some { e with invalid := true } := by
  induction ks generalizing L e with
  | nil => cases h
  | cons a rest ih =>
    have hrest : rest.Nodup := (List.nodup_cons.mp hnd).2
    simp only [markStale, List.foldl_cons]
    by_cases hak : k = a
    · subst hak
      simp only [hget]
      have hk : k ∉ rest := (List.nodup_cons.mp hnd).1
      rw [show (List.foldl
          (fun acc kk =>
            match getEntry acc kk with
            | some ee => setEntry acc kk { ee with invalid := true }
            | none => acc)
          (setEntry L k { e with invalid := true }) rest) =
        markStale (setEntry L k { e with invalid := true }) rest from rfl]
      rw [getEntry_markStale_notMem rest _ k hk]
      exact getEntry_setEntry_self L k _
    · have hk : k ∈ rest := (List.mem_cons.mp h).resolve_left hak
      cases hg : getEntry L a with
      | none =>
        simp only [hg]
        exact ih L e hrest hk hget
      | some ea =>
        simp only [hg]
        rw [show (List.foldl
            (fun acc kk =>
              match getEntry acc kk with
              | some ee => setEntry acc kk { ee with invalid := true }
              | none => acc)
            (setEntry L a { ea with invalid := true }) rest) =
          markStale (setEntry L a { ea with invalid := true }) rest from rfl]
        exact ih (setEntry L a { ea with invalid := true }) e hrest hk
          (by rw [getEntry_setEntry_ne L a k _ hak]; exact hget)

/-- Claim C6: after a mutation succeeds and names key `k` among its
(distinct) affected keys, the entry for `k` is marked stale regardless of any
unelapsed `staleAfter` window, so a next enabled query for `k` (with no fetch
already in flight) starts exactly one new fetch.  The snapshot taken for the
optimistic update is not part of the resulting state (it is discarded by
`mutateSpec` on the success path). -/
theorem c6_success_invalidates_affected_keys (store : CacheStore V E)
    (ks : List CacheKey) (patchFor : CacheKey → Option V) (r : R)
    (k : CacheKey) (now sa : Nat) (hnd : ks.Nodup) (hmem : k ∈ ks)
    (hnif : ∀ e0, getEntry store k = some e0 → e0.inFlight = false) :
    (getEntry (mutateSpec store ks patchFor (.ok r : Except E R)).1 k).map
      CacheEntry.invalid = some true ∧
    (queryStep (mutateSpec store ks patchFor (.ok r : Except E R)).1 k now
      ⟨sa, true⟩).2 = QueryAction.startedFetch := by
  have hstore : (mutateSpec store ks patchFor (.ok r : Except E R)).1 =
      markStale (applyPatches store ks patchFor) ks := rfl
  have hA : getEntry (applyPatches store ks patchFor) k =
      some (patchEntry (getEntry store k) (patchFor k)) :=
    getEntry_applyPatches_mem ks store patchFor k hnd hmem
  have hM : getEntry (markStale (applyPatches store ks patchFor) ks) k =
      some { patchEntry (getEntry store k) (patchFor k) with invalid := true } :=
    getEntry_markStale_mem ks _ k _ hnd hmem hA
  have hif : (patchEntry (getEntry store k) (patchFor k)).inFlight = false := by
    cases hg : getEntry store k with
    | none => simp [patchEntry, newEntry]
    | some e0 => simpa [patchEntry] using hnif e0 hg
  constructor
  · rw [hstore, hM]
    rfl
  · rw [hstore]
    simp [queryStep, hM, hif, isFresh]

theorem c6_success_invalidates_affected_keys_witness :
    ([["events"]] : List CacheKey).Nodup ∧ (["events"] : CacheKey) ∈
      ([["events"]] : List CacheKey) ∧
    (getEntry (mutateSpec demoStore [["events"]] (fun _ => some 2)
      (.ok 0 : Except String Nat)).1 ["events"]).map CacheEntry.invalid =
      some true ∧
    (queryStep (mutateSpec demoStore [["events"]] (fun _ => some 2)
      (.ok 0 : Except String Nat)).1 ["events"] 1000 ⟨5000, true⟩).2 =
      QueryAction.startedFetch :=
  ⟨by decide, by decide,
    (c6_success_invalidates_affected_keys demoStore [["events"]] (fun _ => some 2)
      0 ["events"] 1000 5000 (by decide) (by decide)
      (fun e0 h => by
        rw [show getEntry demoStore ["events"] = some demoEntry from rfl] at h
        cases h
        rfl)).1,
    (c6_success_invalidates_affected_keys demoStore [["events"]] (fun _ => some 2)
      0 ["events"] 1000 5000 (by decide) (by decide)
      (fun e0 h => by
        rw [show getEntry demoStore ["events"] = some demoEntry from rfl] at h
        cases h
        rfl)).2⟩

/-- Claim C7: every rejection of a supplied async function is captured and
resolved into the error state, never escaping the core: the `useFetch` run,
the `fetchPlaces` run and the mutation sequence are total functions of the
settled outcome; on a rejected outcome they record the failure in the error
field (the mutation surfaces it as a value to its caller) and terminate with
the loading flag cleared. -/
theorem c7_rejections_resolve_into_error_state (s : UseFetchState V)
    (ps : PlacesState P) (e : JsError) (sortFn : List P → List P)
    (store : CacheStore W F) (ks : List CacheKey)
    (patchFor : CacheKey → Option W) (err : F) :
    (fetchData s (.error e)).error.isSome = true ∧
    (fetchData s (.error e)).isFetching = some false ∧
    (fetchPlaces ps (.error e) sortFn).error.isSome = true ∧
    (fetchPlaces ps (.error e) sortFn).isFetching = false ∧
    (mutateSpec store ks patchFor (.error err : Except F R)).2 =
      Except.error err :=
  ⟨rfl, rfl, rfl, rfl, rfl⟩

/-- Claim C8 (counterexample): a query issued with `enabled := false` sends
no request, but its reported state is pending, not idle: `isPending` is true
(the lesson notes call out that the pending-driven loading indicator is
visible), refuting "the query's reported status is idle (not a
pending/fetching status)". -/
theorem c8_disabled_query_idle_counterexample :
    (useQueryRender false).requestSent = false ∧
    (useQueryRender false).isPending = true ∧
    (useQueryRender false).status = RqStatus.pending :=
  ⟨rfl, rfl, rfl⟩

/-- Claim C8 (amended): for every query issued with the `enabled` option set
to false, no fetch is performed, and the query reports the pending status
(`isPending = true`) while `isLoading` stays false — the status is not
idle. -/
theorem c8_disabled_query_no_fetch_but_pending :
    (useQueryRender false).requestSent = false ∧
    (useQueryRender false).status = RqStatus.pending ∧
    (useQueryRender false).isPending = true ∧
    (useQueryRender false).isLoading = false :=
  ⟨rfl, rfl, rfl, rfl⟩
